import Mathlib

/-!
Shallow embedding of `hupper/ipc.py`: the framing codec, the duplex
`Connection` channel (`_recv_packet`, `_read_loop`, `send`, `recv`), the
process spawner (`spawn` / `spawn_main` wire behaviour, `prepare`), the
`ProcessGroup` manager, the termios guard and the `Pipe` constructor.

Byte streams are modelled as `List Nat` (each element one byte).  A blocking
`read(n)` on a buffered stream whose peer eventually closes is modelled as
returning `min n available` bytes: all requested bytes when they are in the
stream, the remaining suffix when the stream ends first, and `[]` at
end-of-stream.
-/

namespace Hupper

/-! ## Byte-level helpers: the `struct.pack('Q', ·)` / `struct.unpack('Q', ·)`
model.  `'Q'` is a fixed-width 8-byte unsigned integer in the platform's
(little-endian) byte order. -/

/-- Little-endian base-256 digits, fixed width `k` (`struct.pack` of a value
already reduced below `256^k`). -/
def toLEBytes : Nat → Nat → List Nat
  | 0, _ => []
  | k + 1, n => n % 256 :: toLEBytes k (n / 256)

/-- Little-endian base-256 value of a byte list (`struct.unpack('Q', ·)` on an
8-byte chunk). -/
def ofDigits : List Nat → Nat
  | [] => 0
  | d :: ds => d + 256 * ofDigits ds

/-- `struct.pack('Q', n)`: 8 little-endian bytes; raises `struct.error` (here:
`none`) when `n` does not fit in 64 bits. -/
def packQ (n : Nat) : Option (List Nat) :=
  if n < 2 ^ 64 then some (toLEBytes 8 n) else none

theorem length_toLEBytes (k n : Nat) : (toLEBytes k n).length = k := by
  induction k generalizing n with
  | zero => rfl
  | succ k ih => simp [toLEBytes, ih]

theorem ofDigits_toLEBytes (k n : Nat) : ofDigits (toLEBytes k n) = n % 256 ^ k := by
  induction k generalizing n with
  | zero => simp [toLEBytes, ofDigits, Nat.mod_one]
  | succ k ih =>
      simp only [toLEBytes, ofDigits, ih]
      rw [Nat.pow_succ, Nat.mul_comm (256 ^ k) 256, Nat.mod_mul]

/-! ## The serialization format.

Modelled from the spec: `pickle.dumps` / `pickle.loads` / `pickle.load` are
the Python standard library, not part of this repository.  The spec requires
only "a general-purpose object serialization format" supporting nested
sequences and primitive scalars that round-trips every serializable value, so
we model a concrete injective, self-delimiting byte encoding of such values
together with its decoder. -/

/-- A serializable value: an unsigned scalar, a byte string, or a nested
sequence. -/
inductive Value where
  | nat : Nat → Value
  | str : List Nat → Value
  | list : List Value → Value

/-- Minimal little-endian base-256 digits of a natural number, with explicit
fuel (`fuel ≥ n` always suffices, since each step divides by 256). -/
def toDigitsAux : Nat → Nat → List Nat
  | 0, _ => []
  | fuel + 1, n => if n = 0 then [] else n % 256 :: toDigitsAux fuel (n / 256)

/-- Minimal little-endian base-256 digits of a natural number. -/
def toDigits (n : Nat) : List Nat :=
  toDigitsAux n n

/-- A natural number encoded as a digit-count byte followed by its minimal
little-endian digits. -/
def encNat (n : Nat) : List Nat :=
  (toDigits n).length :: toDigits n

/-- Decode an `encNat`-encoded number from the front of a byte list. -/
def decNat : List Nat → Option (Nat × List Nat)
  | [] => none
  | len :: rest =>
      if len ≤ rest.length then some (ofDigits (rest.take len), rest.drop len)
      else none

mutual

/-- `pickle.dumps`: tag byte `0` for scalars, `1` for byte strings (length
then raw bytes), `2` for sequences (element count then concatenated
serialized elements). -/
def dumps : Value → List Nat
  | .nat n => 0 :: encNat n
  | .str bs => 1 :: (encNat bs.length ++ bs)
  | .list vs => 2 :: (encNat vs.length ++ dumpsList vs)

def dumpsList : List Value → List Nat
  | [] => []
  | v :: vs => dumps v ++ dumpsList vs

end

mutual

/-- Fuelled decoder for one serialized value at the front of a byte list;
returns the value and the unconsumed suffix. -/
def parseV : Nat → List Nat → Option (Value × List Nat)
  | 0, _ => none
  | _ + 1, 0 :: rest =>
      (decNat rest).map fun p => (.nat p.1, p.2)
  | _ + 1, 1 :: rest =>
      match decNat rest with
      | some (len, r) =>
          if len ≤ r.length then some (.str (r.take len), r.drop len) else none
      | none => none
  | fuel + 1, 2 :: rest =>
      match decNat rest with
      | some (cnt, r) => (parseVs fuel cnt r).map fun p => (.list p.1, p.2)
      | none => none
  | _ + 1, _ => none

def parseVs : Nat → Nat → List Nat → Option (List Value × List Nat)
  | _, 0, bs => some ([], bs)
  | 0, _ + 1, _ => none
  | fuel + 1, cnt + 1, bs =>
      match parseV fuel bs with
      | some (v, r) => (parseVs fuel cnt r).map fun p => (v :: p.1, p.2)
      | none => none

end

/-- `pickle.load`: decode exactly one serialized value from the front of a
stream, returning it with the unread suffix; fails on a truncated or
malformed stream. -/
def loadStream (bs : List Nat) : Option (Value × List Nat) :=
  parseV bs.length bs

/-- `pickle.loads`: decode a byte string that must hold exactly one
serialized value. -/
def loads (bs : List Nat) : Option Value :=
  match parseV bs.length bs with
  | some (v, []) => some v
  | _ => none

/-! ## Round-trip of the serialization model -/

theorem ofDigits_toDigitsAux (fuel n : Nat) (h : n ≤ fuel) :
    ofDigits (toDigitsAux fuel n) = n := by
  induction fuel generalizing n with
  | zero =>
      interval_cases n
      simp [toDigitsAux, ofDigits]
  | succ fuel ih =>
      by_cases h0 : n = 0
      · simp [h0, toDigitsAux, ofDigits]
      · have hdiv : n / 256 ≤ fuel := by
          have := Nat.div_lt_self (Nat.pos_of_ne_zero h0) (show 1 < 256 by omega)
          omega
        simp only [toDigitsAux, h0, if_false, ofDigits, ih _ hdiv]
        omega

theorem ofDigits_toDigits (n : Nat) : ofDigits (toDigits n) = n :=
  ofDigits_toDigitsAux n n le_rfl

theorem decNat_encNat (n : Nat) (rest : List Nat) :
    decNat (encNat n ++ rest) = some (n, rest) := by
  have h : (toDigits n).length ≤ (toDigits n ++ rest).length := by
    simp
  simp only [encNat, List.cons_append, decNat, if_pos h, List.take_left,
    List.drop_left, ofDigits_toDigits]

mutual

/-- Fuel measure: number of nodes and sequence cells of a value. -/
def vfuel : Value → Nat
  | .nat _ => 1
  | .str _ => 1
  | .list vs => 1 + vsfuel vs

def vsfuel : List Value → Nat
  | [] => 0
  | v :: vs => 1 + vfuel v + vsfuel vs

end

mutual

theorem parseV_dumps (v : Value) (rest : List Nat) (fuel : Nat)
    (h : vfuel v ≤ fuel) : parseV fuel (dumps v ++ rest) = some (v, rest) := by
  obtain ⟨f, rfl⟩ : ∃ f, fuel = f + 1 := by
    cases v <;> simp [vfuel] at h <;> exact ⟨fuel - 1, by omega⟩
  cases v with
  | nat n =>
      simp only [dumps, List.cons_append, parseV, decNat_encNat, Option.map]
  | str bs =>
      have hl : bs.length ≤ (bs ++ rest).length := by simp
      simp only [dumps, List.cons_append, List.append_assoc, parseV,
        decNat_encNat, if_pos hl, List.take_left, List.drop_left]
  | list vs =>
      have hvs : vsfuel vs ≤ f := by simp [vfuel] at h; omega
      simp only [dumps, List.cons_append, List.append_assoc, parseV,
        decNat_encNat, parseVs_dumpsList vs rest f hvs, Option.map]

theorem parseVs_dumpsList (vs : List Value) (rest : List Nat) (fuel : Nat)
    (h : vsfuel vs ≤ fuel) :
    parseVs fuel vs.length (dumpsList vs ++ rest) = some (vs, rest) := by
  cases vs with
  | nil => cases fuel <;> simp [dumpsList, parseVs]
  | cons v vs =>
      obtain ⟨f, rfl⟩ : ∃ f, fuel = f + 1 := ⟨fuel - 1, by simp [vsfuel] at h; omega⟩
      have hv : vfuel v ≤ f := by simp [vsfuel] at h; omega
      have hvs : vsfuel vs ≤ f := by simp [vsfuel] at h; omega
      simp only [dumpsList, List.length_cons, List.append_assoc, parseVs,
        parseV_dumps v (dumpsList vs ++ rest) f hv,
        parseVs_dumpsList vs rest f hvs, Option.map]

end

mutual

theorem vfuel_lt_length_dumps (v : Value) : vfuel v < (dumps v).length := by
  cases v with
  | nat n => simp [vfuel, dumps, encNat]
  | str bs => simp [vfuel, dumps, encNat]
  | list vs =>
      have := vsfuel_le_length_dumpsList vs
      simp only [vfuel, dumps, List.length_cons, List.length_append, encNat]
      simp
      omega

theorem vsfuel_le_length_dumpsList (vs : List Value) :
    vsfuel vs ≤ (dumpsList vs).length := by
  cases vs with
  | nil => simp [vsfuel, dumpsList]
  | cons v vs =>
      have h1 := vfuel_lt_length_dumps v
      have h2 := vsfuel_le_length_dumpsList vs
      simp only [vsfuel, dumpsList, List.length_append]
      omega

end

theorem dumps_ne_nil (v : Value) : dumps v ≠ [] := by
  cases v <;> simp [dumps]

theorem loadStream_dumps (v : Value) (rest : List Nat) :
    loadStream (dumps v ++ rest) = some (v, rest) := by
  unfold loadStream
  exact parseV_dumps v rest _ (by
    have h1 := vfuel_lt_length_dumps v
    simp only [List.length_append]
    omega)

theorem loads_dumps (v : Value) : loads (dumps v) = some v := by
  unfold loads
  have h := parseV_dumps v [] (dumps v).length (le_of_lt (vfuel_lt_length_dumps v))
  rw [List.append_nil] at h
  rw [h]

/-! ## `Connection._recv_packet` and `Connection._read_loop`

`Connection._recv_packet` (ipc.py lines 148-164) over the byte stream model:
`self.r.read(8)` returns `take 8` of the stream; an empty first chunk is the
clean end-of-stream (`return None`); a short first chunk makes
`struct.unpack('Q', chunk)` raise `struct.error`; the payload loop reads
whatever is available, raising `EOFError` when nothing at all of the payload
arrived (`remaining == size`) and `IOError` when the stream ends mid-payload
(`remaining < size`); a full payload is handed to `pickle.loads`, whose own
failure (`UnpicklingError`) also escapes. -/

/-- Outcome of one `_recv_packet` call: the `return None` clean end-of-stream,
a decoded packet, or one of the exceptions the method can raise. -/
inductive RecvResult where
  | cleanEOS
  | packet : Value → RecvResult
  | errStruct
  | errEOF
  | errMidPayload
  | errPickle

/-- `Connection._recv_packet` on the remaining stream contents; returns the
outcome and the unconsumed stream suffix (empty when the call raises). -/
def recvPacket (s : List Nat) : RecvResult × List Nat :=
  let chunk := s.take 8
  if chunk.length = 0 then (.cleanEOS, [])
  else if chunk.length < 8 then (.errStruct, [])
  else
    let size := ofDigits chunk
    let rest := s.drop 8
    if size = 0 then
      match loads [] with
      | some v => (.packet v, rest)
      | none => (.errPickle, rest)
    else if rest.length = 0 then (.errEOF, [])
    else if rest.length < size then (.errMidPayload, [])
    else
      match loads (rest.take size) with
      | some v => (.packet v, rest.drop size)
      | none => (.errPickle, rest.drop size)

/-- How `Connection._read_loop` finishes: `sentinel` when it reaches the
`self.reader_queue.put(None)` line (after `break` on a clean close, or after
`except EOFError: pass`), `abnormal` when an uncaught exception terminates the
thread without enqueueing the sentinel. -/
inductive LoopExit where
  | sentinel
  | abnormal
deriving DecidableEq

/-- `Connection._read_loop` (ipc.py lines 166-175): the list of packets put on
`reader_queue` in order, and how the loop exits. -/
def readLoopAux : Nat → List Nat → List Value × LoopExit
  | 0, _ => ([], .abnormal)
  | fuel + 1, s =>
      match recvPacket s with
      | (.cleanEOS, _) => ([], .sentinel)
      | (.errEOF, _) => ([], .sentinel)
      | (.packet v, rest) =>
          let r := readLoopAux fuel rest
          (v :: r.1, r.2)
      | (_, _) => ([], .abnormal)

def readLoop (s : List Nat) : List Value × LoopExit :=
  readLoopAux (s.length + 1) s

/-- Contents of `reader_queue` once `_read_loop` has finished with stream
contents `s`: every decoded packet (as `some v`), followed by the closed
sentinel `none` exactly when the loop exited through `put(None)`. -/
def queueAfterClose (s : List Nat) : List (Option Value) :=
  (readLoop s).1.map some ++
    (match (readLoop s).2 with
     | .sentinel => [none]
     | .abnormal => [])

/-- `Connection.recv` (ipc.py lines 185-187) against a queue state:
`reader_queue.get` pops the head when one is present; on an empty queue (and
a finished reader thread) it blocks forever, modelled as `none`. -/
def recvFromQueue (q : List (Option Value)) : Option (Option Value) × List (Option Value) :=
  match q with
  | [] => (none, [])
  | x :: xs => (some x, xs)

/-! ## `Connection.send` -/

/-- `Connection.send` (ipc.py lines 177-183): pickle the value, write the
8-byte `struct.pack('Q', len(data))` prefix then the payload, and return
`len(data) + 8`.  `none` models the `struct.error` raised when the payload
length does not fit in 64 bits. -/
def send (v : Value) : Option (List Nat × Nat) :=
  let data := dumps v
  match packQ data.length with
  | some prefixBytes => some (prefixBytes ++ data, data.length + 8)
  | none => none

/-! ## `Pipe` and `Connection.__init__` -/

/-- `Connection.__init__` (ipc.py lines 110-114): the four descriptors held by
one end of the duplex channel. -/
structure Connection where
  r_fd : Nat
  w_fd : Nat
  remote_r_fd : Nat
  remote_w_fd : Nat

/-- `os.pipe()` against a fresh-descriptor allocator: returns the (read, write)
descriptor pair and the next allocator state.  A pipe's two descriptors are
always distinct, newly allocated resources. -/
def os_pipe (next : Nat) : (Nat × Nat) × Nat :=
  ((next, next + 1), next + 2)

/-- `Pipe()` (ipc.py lines 97-103): two OS pipes, wired crosswise into two
`Connection`s. -/
def Pipe (next : Nat) : (Connection × Connection) × Nat :=
  let p1 := os_pipe next
  let c2pr_fd := p1.1.1
  let c2pw_fd := p1.1.2
  let p2 := os_pipe p1.2
  let p2cr_fd := p2.1.1
  let p2cw_fd := p2.1.2
  let c1 : Connection := ⟨c2pr_fd, p2cw_fd, p2cr_fd, c2pw_fd⟩
  let c2 : Connection := ⟨p2cr_fd, c2pw_fd, c2pr_fd, p2cw_fd⟩
  ((c1, c2), p2.2)

/-! ## `ProcessGroup.add_child` -/

/-- Result of the `winapi.AssignProcessToJobObject` call for one pid: success,
or an `OSError` carrying a `winerror` code. -/
inductive AssignResult where
  | ok
  | osError : Int → AssignResult
deriving DecidableEq

/-- The Windows API surface `add_child` touches, as an oracle: what
`AssignProcessToJobObject(h_job, OpenProcess(..., pid))` does for each pid at
the moment of the call. -/
structure WinApi where
  assign : Nat → AssignResult

/-- Windows `ProcessGroup.add_child` (ipc.py lines 41-51): assign the process
to the job; swallow an `OSError` whose `winerror` is 5 (access denied: the
process is already attached to another job); re-raise anything else. -/
def add_child_win (api : WinApi) (pid : Nat) : Except Int Unit :=
  match api.assign pid with
  | .ok => .ok ()
  | .osError e => if e = 5 then .ok () else .error e

/-- POSIX `ProcessGroup.add_child` (ipc.py lines 75-78): nothing to do. -/
def add_child_posix (_pid : Nat) : Except Int Unit :=
  .ok ()

/-! ## `snapshot_termios` / `restore_termios` (POSIX, ipc.py lines 80-88) -/

/-- The termios-relevant state of the world: which descriptors are terminals
and what `termios.tcgetattr` currently reports for them. -/
structure TermiosEnv where
  isatty : Nat → Bool
  tcgetattr : Nat → List Nat

/-- Side effects `restore_termios` can perform. -/
inductive TermiosAction where
  | tcflush : Nat → TermiosAction
  | tcsetattr : Nat → List Nat → TermiosAction
deriving DecidableEq

/-- `snapshot_termios(fd)`: capture `tcgetattr` when `fd` is a tty, otherwise
fall through returning `None`. -/
def snapshot_termios (env : TermiosEnv) (fd : Nat) : Option (List Nat) :=
  if env.isatty fd then some (env.tcgetattr fd) else none

/-- Python truthiness of the captured state (`None` and the empty attribute
list are falsy). -/
def stateTruthy : Option (List Nat) → Bool
  | none => false
  | some [] => false
  | some (_ :: _) => true

/-- `restore_termios(fd, state)`: when `fd` is still a tty and the state is
truthy, flush pending input/output and reapply the attributes; otherwise do
nothing. -/
def restore_termios (env : TermiosEnv) (fd : Nat) (state : Option (List Nat)) :
    List TermiosAction :=
  if env.isatty fd && stateTruthy state then
    [.tcflush fd, .tcsetattr fd (state.getD [])]
  else []

/-! ## `spawn` / `spawn_main` (ipc.py lines 240-286) -/

/-- Process-global state the bootstrap replays into (`sys.argv`). -/
structure GState where
  argv : List String

/-- The preparation-data dict: `get_preparation_data` puts the `sys.argv` key
in it; `prepare` checks for that key's presence. -/
structure PrepData where
  argv : Option (List String)

/-- `get_preparation_data()` (ipc.py lines 240-243). -/
def get_preparation_data (st : GState) : PrepData :=
  ⟨some st.argv⟩

/-- `prepare(data)` (ipc.py lines 246-248): restore `sys.argv` when the key is
present. -/
def prepare (data : PrepData) (st : GState) : GState :=
  match data.argv with
  | some a => { st with argv := a }
  | none => st

/-- `spec.rsplit('.', 1)` unpacked into `modname, funcname` (ipc.py line 281):
split at the last dot; `none` models the `ValueError` from unpacking a
one-element list when `spec` contains no dot. -/
def rsplitDot (s : String) : Option (String × String) :=
  let rev := s.toList.reverse
  if rev.contains '.' then
    some (((rev.dropWhile (· ≠ '.')).tail.reverse).asString,
          ((rev.takeWhile (· ≠ '.')).reverse).asString)
  else none

/-- Modelled from the spec: `importlib.import_module` and `getattr` (standard
library) as an opaque lookup table from module names to attribute tables;
callables are opaque identifiers. -/
structure ModuleEnv where
  modules : String → Option (String → Option Nat)

/-- Exceptions `spawn_main`'s post-bootstrap phase can raise. -/
inductive SpawnErr where
  | valueError
  | importError
  | attributeError
deriving DecidableEq

/-- Observable result of a normal `spawn_main` run: the replayed global state,
which callable was invoked with which kwargs, and the exit status. -/
structure SpawnOutcome where
  state : GState
  callee : Nat
  callKwargs : Value
  exitCode : Nat

/-- `spawn_main` from `prepare(preparation_data)` on (ipc.py lines 279-286):
replay the preparation data, split the dotted spec, import the module, look
up the attribute, call it with the transmitted kwargs, `sys.exit(0)`. -/
def spawn_main_run (env : ModuleEnv) (st : GState) (prep : PrepData)
    (specStr : String) (kwargs : Value) : Except SpawnErr SpawnOutcome :=
  let st' := prepare prep st
  match rsplitDot specStr with
  | none => .error .valueError
  | some (modname, funcname) =>
    match env.modules modname with
    | none => .error .importError
    | some mod =>
      match mod funcname with
      | none => .error .attributeError
      | some func => .ok ⟨st', func, kwargs, 0⟩

/-- The bytes `spawn` writes into the bootstrap pipe (ipc.py line 267):
`pickle.dumps([preparation_data, spec, kwargs])` — the bare pickle of the
three-element list, with no framing around it. -/
def spawnBootstrapBytes (prep specV kwargs : Value) : List Nat :=
  dumps (.list [prep, specV, kwargs])

/-- How `spawn_main` reads the Bootstrap Packet (ipc.py line 276):
`pickle.load(from_parent)` straight off the stream. -/
def spawnMainReadPacket (stream : List Nat) : Option (Value × List Nat) :=
  loadStream stream

/-- The framed channel wire format (the encoding `Connection.send` uses): an
8-byte length prefix followed by the serialized payload.  Stated from the
spec's wire-format sentence for comparison with `spawnBootstrapBytes`. -/
def framedWireBytes (v : Value) : Option (List Nat) :=
  (packQ (dumps v).length).map (· ++ dumps v)

/-! ## Behaviour of `_recv_packet` on framed streams -/

theorem take8_append (pre t : List Nat) (h : pre.length = 8) :
    (pre ++ t).take 8 = pre := by
  rw [← h, List.take_left]

theorem drop8_append (pre t : List Nat) (h : pre.length = 8) :
    (pre ++ t).drop 8 = t := by
  rw [← h, List.drop_left]

theorem ofDigits_toLEBytes8 (K : Nat) (h : K < 2 ^ 64) :
    ofDigits (toLEBytes 8 K) = K := by
  rw [ofDigits_toLEBytes]
  have h8 : (256 : Nat) ^ 8 = 2 ^ 64 := by norm_num
  rw [h8]
  exact Nat.mod_eq_of_lt h

/-- `_recv_packet` on a stream that starts with a full 8-byte prefix
announcing `K > 0` payload bytes, followed by whatever `tail` the stream
still delivers before ending. -/
theorem recvPacket_header (K : Nat) (tail : List Nat) (h64 : K < 2 ^ 64)
    (hK : 0 < K) :
    recvPacket (toLEBytes 8 K ++ tail) =
      if tail.length = 0 then (.errEOF, [])
      else if tail.length < K then (.errMidPayload, [])
      else
        match loads (tail.take K) with
        | some v => (.packet v, tail.drop K)
        | none => (.errPickle, tail.drop K) := by
  have hpre : (toLEBytes 8 K).length = 8 := length_toLEBytes 8 K
  simp only [recvPacket, take8_append _ _ hpre, drop8_append _ _ hpre, hpre,
    ofDigits_toLEBytes8 K h64]
  have hK0 : ¬(K = 0) := by omega
  norm_num [hK0]

theorem recvPacket_full_frame (v : Value) (rest : List Nat)
    (h64 : (dumps v).length < 2 ^ 64) :
    recvPacket (toLEBytes 8 (dumps v).length ++ (dumps v ++ rest)) =
      (.packet v, rest) := by
  have hK : 0 < (dumps v).length := List.length_pos.mpr (dumps_ne_nil v)
  rw [recvPacket_header _ _ h64 hK]
  have hlen : (dumps v ++ rest).length = (dumps v).length + rest.length := by
    simp
  rw [if_neg (by omega), if_neg (by omega), List.take_left, List.drop_left,
    loads_dumps]

theorem readLoopAux_succ (fuel : Nat) (s : List Nat) :
    readLoopAux (fuel + 1) s =
      match recvPacket s with
      | (.cleanEOS, _) => ([], .sentinel)
      | (.errEOF, _) => ([], .sentinel)
      | (.packet v, rest) =>
          let r := readLoopAux fuel rest
          (v :: r.1, r.2)
      | (_, _) => ([], .abnormal) := rfl

theorem readLoop_errEOF (s r : List Nat) (h : recvPacket s = (.errEOF, r)) :
    readLoop s = ([], .sentinel) := by
  unfold readLoop
  rw [readLoopAux_succ, h]

theorem readLoop_errMidPayload (s r : List Nat) (h : recvPacket s = (.errMidPayload, r)) :
    readLoop s = ([], .abnormal) := by
  unfold readLoop
  rw [readLoopAux_succ, h]

theorem readLoop_errStruct (s r : List Nat) (h : recvPacket s = (.errStruct, r)) :
    readLoop s = ([], .abnormal) := by
  unfold readLoop
  rw [readLoopAux_succ, h]

theorem queueAfterClose_sentinel (s : List Nat) (vs : List Value)
    (h : readLoop s = (vs, .sentinel)) :
    queueAfterClose s = vs.map some ++ [none] := by
  simp [queueAfterClose, h]

theorem queueAfterClose_abnormal (s : List Nat) (vs : List Value)
    (h : readLoop s = (vs, .abnormal)) :
    queueAfterClose s = vs.map some := by
  simp [queueAfterClose, h]

/-! ## The claims -/

/-- Claim C1, counterexample: the stream that delivers the 8-byte prefix
announcing `K = 1` payload byte and then ends (zero payload bytes arrive) is
a partial frame, yet `_read_loop` finishes by enqueueing the closed sentinel
— the very same queue observable as the genuinely clean close of the empty
stream — because the `EOFError` that `_recv_packet` raises is caught by the
`except EOFError: pass` arm, after which `put(None)` runs. -/
theorem readLoop_sentinel_on_truncated_frame :
    readLoop (toLEBytes 8 1) = ([], LoopExit.sentinel) ∧
    queueAfterClose (toLEBytes 8 1) = [none] ∧
    queueAfterClose [] = [none] :=
  ⟨rfl, rfl, rfl⟩

/-- Claim C1, amended: for a frame announcing `K > 0` payload bytes of which
the stream delivers fewer than `K` before ending, `_recv_packet` always
raises (never takes the clean-end-of-stream `return None`): `IOError` when at
least one payload byte arrived, in which case `_read_loop` dies without
enqueueing the closed sentinel; but `EOFError` when zero payload bytes
arrived, which `_read_loop` catches, exiting via the same sentinel-enqueueing
`put(None)` as a clean close. -/
theorem recv_partial_frame (K : Nat) (payload : List Nat) (hK : 0 < K)
    (h64 : K < 2 ^ 64) (hlt : payload.length < K) :
    (payload = [] →
      recvPacket (toLEBytes 8 K ++ payload) = (.errEOF, []) ∧
      readLoop (toLEBytes 8 K ++ payload) = ([], .sentinel) ∧
      queueAfterClose (toLEBytes 8 K ++ payload) = [none]) ∧
    (payload ≠ [] →
      recvPacket (toLEBytes 8 K ++ payload) = (.errMidPayload, []) ∧
      readLoop (toLEBytes 8 K ++ payload) = ([], .abnormal) ∧
      queueAfterClose (toLEBytes 8 K ++ payload) = []) ∧
    RecvResult.errEOF ≠ RecvResult.cleanEOS ∧
    RecvResult.errMidPayload ≠ RecvResult.cleanEOS := by
  refine ⟨?_, ?_, by simp, by simp⟩
  · intro hnil
    subst hnil
    have hrecv : recvPacket (toLEBytes 8 K ++ []) = (.errEOF, []) := by
      rw [recvPacket_header _ _ h64 hK]
      simp
    exact ⟨hrecv, readLoop_errEOF _ _ hrecv,
      queueAfterClose_sentinel _ _ (readLoop_errEOF _ _ hrecv)⟩
  · intro hne
    have hlen0 : payload.length ≠ 0 := by
      simpa [List.length_eq_zero] using hne
    have hrecv : recvPacket (toLEBytes 8 K ++ payload) = (.errMidPayload, []) := by
      rw [recvPacket_header _ _ h64 hK]
      rw [if_neg hlen0, if_pos hlt]
    refine ⟨hrecv, readLoop_errMidPayload _ _ hrecv, ?_⟩
    simpa using queueAfterClose_abnormal _ [] (readLoop_errMidPayload _ _ hrecv)

/-- Witness for `recv_partial_frame` at the concrete frame announcing 2
payload bytes of which only one (the byte `9`) arrives. -/
theorem recv_partial_frame_witness :
    (0 < 2 ∧ 2 < 2 ^ 64 ∧ ([9] : List Nat).length < 2) ∧
    (recvPacket (toLEBytes 8 2 ++ [9]) = (.errMidPayload, []) ∧
      readLoop (toLEBytes 8 2 ++ [9]) = ([], .abnormal) ∧
      queueAfterClose (toLEBytes 8 2 ++ [9]) = []) :=
  ⟨⟨by decide, by norm_num, by decide⟩,
    (recv_partial_frame 2 [9] (by decide) (by norm_num) (by decide)).2.1
      (by decide)⟩

/-- Claim C10: a stream ending after only 1-7 of the 8 length-prefix bytes
makes `struct.unpack('Q', chunk)` raise `struct.error`, which neither
`_recv_packet` nor `_read_loop` catches: the loop dies without enqueueing the
closed sentinel, and the outcome is distinct from the clean close, from the
zero-payload `EOFError` and from the mid-payload `IOError`. -/
theorem recv_truncated_header (s : List Nat) (h1 : 0 < s.length)
    (h2 : s.length < 8) :
    recvPacket s = (.errStruct, []) ∧
    readLoop s = ([], .abnormal) ∧
    queueAfterClose s = [] ∧
    RecvResult.errStruct ≠ RecvResult.cleanEOS ∧
    RecvResult.errStruct ≠ RecvResult.errEOF ∧
    RecvResult.errStruct ≠ RecvResult.errMidPayload := by
  have htake : s.take 8 = s := List.take_of_length_le (by omega)
  have hrecv : recvPacket s = (.errStruct, []) := by
    simp only [recvPacket, htake]
    rw [if_neg (by omega), if_pos h2]
  refine ⟨hrecv, readLoop_errStruct _ _ hrecv, ?_, by simp, by simp, by simp⟩
  simpa using queueAfterClose_abnormal _ [] (readLoop_errStruct _ _ hrecv)

/-- Witness for `recv_truncated_header` at the one-byte stream `[7]`. -/
theorem recv_truncated_header_witness :
    (0 < ([7] : List Nat).length ∧ ([7] : List Nat).length < 8) ∧
    (recvPacket [7] = (.errStruct, []) ∧ readLoop [7] = ([], .abnormal)) :=
  ⟨⟨by decide, by decide⟩,
    ⟨(recv_truncated_header [7] (by decide) (by decide)).1,
      (recv_truncated_header [7] (by decide) (by decide)).2.1⟩⟩

/-- Claim C2, counterexample: after the peer cleanly closes (empty stream),
the first untimed `recv` returns the closed sentinel, but `_read_loop` put
the sentinel on the queue only once and `recv`'s `reader_queue.get` removes
it, so the second `recv` finds an empty queue (and a dead reader thread) and
blocks forever instead of returning the sentinel again. -/
theorem recv_second_call_blocks :
    recvFromQueue (queueAfterClose []) = (some none, []) ∧
    recvFromQueue (recvFromQueue (queueAfterClose [])).2 = (none, []) ∧
    (none : Option (Option Value)) ≠ some none :=
  ⟨rfl, rfl, by simp⟩

/-- Claim C2, amended: once the peer has cleanly closed, the reader queue
holds the decoded packets followed by exactly one closed sentinel; the first
`recv` past the packets returns the sentinel, and every later `recv` blocks
forever on the now-empty queue rather than returning the sentinel again. -/
theorem recv_after_clean_close (s : List Nat) (vs : List Value)
    (h : readLoop s = (vs, LoopExit.sentinel)) :
    queueAfterClose s = vs.map some ++ [none] ∧
    (none : Option Value) ∉ vs.map some ∧
    recvFromQueue ((queueAfterClose s).drop vs.length) = (some none, []) ∧
    recvFromQueue ([] : List (Option Value)) = (none, []) := by
  have hq : queueAfterClose s = vs.map some ++ [none] :=
    queueAfterClose_sentinel s vs h
  refine ⟨hq, by simp, ?_, rfl⟩
  rw [hq, show vs.length = (vs.map some).length by simp, List.drop_left]
  rfl

/-- Witness for `recv_after_clean_close` on the empty stream (peer closed
without sending a frame). -/
theorem recv_after_clean_close_witness :
    readLoop [] = ([], LoopExit.sentinel) ∧
    (queueAfterClose [] = List.map some [] ++ [none] ∧
      (none : Option Value) ∉ List.map some ([] : List Value) ∧
      recvFromQueue ((queueAfterClose []).drop (List.length ([] : List Value))) =
        (some none, []) ∧
      recvFromQueue ([] : List (Option Value)) = (none, [])) :=
  ⟨rfl, recv_after_clean_close [] [] rfl⟩

/-- Claim C3, counterexample: for the concrete Bootstrap Packet
`[nat 0, str [], list []]`, the framed channel encoding exists and prepends
the 8-byte length prefix, but the bytes `spawn` actually writes are the bare
pickle without that prefix: the two byte sequences differ. -/
theorem bootstrap_not_framed :
    framedWireBytes (Value.list [Value.nat 0, Value.str [], Value.list []]) =
      some (toLEBytes 8 9 ++
        spawnBootstrapBytes (Value.nat 0) (Value.str []) (Value.list [])) ∧
    spawnBootstrapBytes (Value.nat 0) (Value.str []) (Value.list []) ≠
      toLEBytes 8 9 ++
        spawnBootstrapBytes (Value.nat 0) (Value.str []) (Value.list []) := by
  constructor
  · rfl
  · decide

/-- Claim C3, amended: the Bootstrap Packet does not use the length-prefixed
channel frame format: `spawn` writes the bare serialized bytes of the
three-element bundle `[preparation_data, spec, kwargs]` with no 8-byte length
prefix, and `spawn_main` reads it by deserializing directly from the stream
(the format is self-delimiting), recovering exactly the transmitted bundle. -/
theorem bootstrap_wire_format (p s k : Value) :
    spawnBootstrapBytes p s k = dumps (Value.list [p, s, k]) ∧
    spawnMainReadPacket (spawnBootstrapBytes p s k) =
      some (Value.list [p, s, k], []) := by
  refine ⟨rfl, ?_⟩
  unfold spawnMainReadPacket spawnBootstrapBytes
  have h := loadStream_dumps (Value.list [p, s, k]) []
  rwa [List.append_nil] at h

/-- Claim C4: the frame round-trip.  Encoding a serializable value the way
`Connection.send` does (8-byte length prefix of the pickled payload, then the
payload) and decoding those bytes the way `Connection._recv_packet` does
yields the value back, with the stream fully consumed. -/
theorem send_recv_roundtrip (v : Value) (h64 : (dumps v).length < 2 ^ 64) :
    send v = some (toLEBytes 8 (dumps v).length ++ dumps v,
      (dumps v).length + 8) ∧
    recvPacket (toLEBytes 8 (dumps v).length ++ dumps v) =
      (.packet v, []) := by
  constructor
  · simp only [send, packQ]
    rw [if_pos h64]
  · have h := recvPacket_full_frame v [] h64
    rwa [List.append_nil] at h

/-- Witness for `send_recv_roundtrip` at the value `nat 0`. -/
theorem send_recv_roundtrip_witness :
    (dumps (Value.nat 0)).length < 2 ^ 64 ∧
    (send (Value.nat 0) = some (toLEBytes 8 (dumps (Value.nat 0)).length ++
        dumps (Value.nat 0), (dumps (Value.nat 0)).length + 8) ∧
      recvPacket (toLEBytes 8 (dumps (Value.nat 0)).length ++
        dumps (Value.nat 0)) = (.packet (Value.nat 0), [])) :=
  ⟨by decide, send_recv_roundtrip (Value.nat 0) (by decide)⟩

/-- Claim C7: `Connection.send(v)` returns the number of bytes written: the
8-byte length prefix plus the byte length of the serialized payload, which is
exactly the length of the byte sequence it wrote to the stream. -/
theorem send_returns_bytes_written (v : Value)
    (h64 : (dumps v).length < 2 ^ 64) :
    ∃ written : List Nat,
      send v = some (written, 8 + (dumps v).length) ∧
      written.length = 8 + (dumps v).length := by
  refine ⟨toLEBytes 8 (dumps v).length ++ dumps v, ?_, ?_⟩
  · simp only [send, packQ]
    rw [if_pos h64, Nat.add_comm]
  · simp [length_toLEBytes]

/-- Witness for `send_returns_bytes_written` at the value `str [1, 2, 3]`. -/
theorem send_returns_bytes_written_witness :
    (dumps (Value.str [1, 2, 3])).length < 2 ^ 64 ∧
    (∃ written : List Nat,
      send (Value.str [1, 2, 3]) =
        some (written, 8 + (dumps (Value.str [1, 2, 3])).length) ∧
      written.length = 8 + (dumps (Value.str [1, 2, 3])).length) :=
  ⟨by decide, send_returns_bytes_written (Value.str [1, 2, 3]) (by decide)⟩

/-- Claim C5: `add_child` succeeds on both of two calls with the same pid as
long as each underlying job assignment either succeeds or fails with the
"already a member of another job" access-denied code 5 (`api₁`/`api₂` are
the OS's assignment behaviour at the first and second call); it re-raises
every other `winerror`; and the POSIX variant always succeeds. -/
theorem add_child_same_pid_twice (api₁ api₂ api₃ : WinApi) (pid p : Nat)
    (e : Int)
    (h₁ : api₁.assign pid = .ok ∨ api₁.assign pid = .osError 5)
    (h₂ : api₂.assign pid = .ok ∨ api₂.assign pid = .osError 5)
    (he : e ≠ 5) (h₃ : api₃.assign p = .osError e) :
    add_child_win api₁ pid = .ok () ∧
    add_child_win api₂ pid = .ok () ∧
    add_child_win api₃ p = .error e ∧
    add_child_posix pid = .ok () ∧ add_child_posix pid = .ok () := by
  refine ⟨?_, ?_, ?_, rfl, rfl⟩
  · rcases h₁ with h | h <;> simp [add_child_win, h]
  · rcases h₂ with h | h <;> simp [add_child_win, h]
  · simp [add_child_win, h₃, he]

/-- Assignment behaviour at a first `add_child` call: the process joins the
job. -/
def apiFirst : WinApi := ⟨fun _ => .ok⟩

/-- Assignment behaviour at a repeated `add_child` call: the process is
already attached to a job, so the call fails with access denied (5). -/
def apiSecond : WinApi := ⟨fun _ => .osError 5⟩

/-- Assignment behaviour for an unrelated failure (`winerror` 2). -/
def apiOther : WinApi := ⟨fun _ => .osError 2⟩

/-- Witness for `add_child_same_pid_twice` at pid 7. -/
theorem add_child_same_pid_twice_witness :
    (apiFirst.assign 7 = .ok ∨ apiFirst.assign 7 = .osError 5) ∧
    (apiSecond.assign 7 = .ok ∨ apiSecond.assign 7 = .osError 5) ∧
    (2 : Int) ≠ 5 ∧ apiOther.assign 7 = .osError 2 ∧
    (add_child_win apiFirst 7 = .ok () ∧
      add_child_win apiSecond 7 = .ok () ∧
      add_child_win apiOther 7 = .error 2 ∧
      add_child_posix 7 = .ok () ∧ add_child_posix 7 = .ok ()) :=
  ⟨Or.inl rfl, Or.inr rfl, by decide, rfl,
    add_child_same_pid_twice apiFirst apiSecond apiOther 7 7 2 (Or.inl rfl)
      (Or.inr rfl) (by decide) rfl⟩

/-- Claim C6: given a complete Bootstrap Packet whose dotted spec splits into
a module path and a name that the import system resolves, `spawn_main`
replays the transmitted argument vector into the process-global state,
invokes exactly the looked-up callable with exactly the supplied kwargs, and
exits with status 0. -/
theorem spawn_main_invokes_target (env : ModuleEnv) (st : GState)
    (prep : PrepData) (specStr : String) (kwargs : Value)
    (modname funcname : String) (mod : String → Option Nat) (func : Nat)
    (a : List String)
    (hsplit : rsplitDot specStr = some (modname, funcname))
    (himp : env.modules modname = some mod)
    (hattr : mod funcname = some func)
    (hargv : prep.argv = some a) :
    spawn_main_run env st prep specStr kwargs = .ok ⟨⟨a⟩, func, kwargs, 0⟩ := by
  simp [spawn_main_run, prepare, hargv, hsplit, himp, hattr]

/-- A one-module import system for the witness: `hupper.worker` exports
`main` as callable 1. -/
def workerModules : ModuleEnv :=
  ⟨fun m => if m = "hupper.worker" then
      some (fun f => if f = "main" then some 1 else none)
    else none⟩

/-- Witness for `spawn_main_invokes_target`: the packet
`{sys.argv: ["app", "--reload"]}, "hupper.worker.main", nat 9`. -/
theorem spawn_main_invokes_target_witness :
    rsplitDot "hupper.worker.main" = some ("hupper.worker", "main") ∧
    workerModules.modules "hupper.worker" =
      some (fun f => if f = "main" then some 1 else none) ∧
    (if "main" = "main" then some 1 else none) = some 1 ∧
    (PrepData.mk (some ["app", "--reload"])).argv = some ["app", "--reload"] ∧
    spawn_main_run workerModules ⟨["orig"]⟩ ⟨some ["app", "--reload"]⟩
        "hupper.worker.main" (Value.nat 9) =
      .ok ⟨⟨["app", "--reload"]⟩, 1, Value.nat 9, 0⟩ :=
  ⟨rfl, rfl, rfl, rfl,
    spawn_main_invokes_target workerModules ⟨["orig"]⟩
      ⟨some ["app", "--reload"]⟩ "hupper.worker.main" (Value.nat 9)
      "hupper.worker" "main" _ 1 ["app", "--reload"] rfl rfl rfl rfl⟩

/-- Claim C8: `snapshot_termios` captures the line-discipline attributes
exactly when the descriptor is a terminal and returns the empty state
otherwise; `restore_termios` flushes and reapplies the captured attributes
exactly when the descriptor is still a terminal and the state is non-empty,
and performs no action otherwise. -/
theorem termios_guard (env : TermiosEnv) (fdT fdN : Nat)
    (st : Option (List Nat)) (x : Nat) (l : List Nat)
    (hT : env.isatty fdT = true) (hN : env.isatty fdN = false) :
    snapshot_termios env fdT = some (env.tcgetattr fdT) ∧
    snapshot_termios env fdN = none ∧
    restore_termios env fdT (some (x :: l)) =
      [.tcflush fdT, .tcsetattr fdT (x :: l)] ∧
    restore_termios env fdN st = [] ∧
    restore_termios env fdT none = [] ∧
    restore_termios env fdT (some []) = [] := by
  refine ⟨?_, ?_, ?_, ?_, ?_, ?_⟩ <;>
    simp [snapshot_termios, restore_termios, stateTruthy, hT, hN]

/-- Terminal environment for the witness: descriptor 0 is a tty with
attributes `[1, 2, 3]`; descriptor 1 is not a tty. -/
def ttyEnv : TermiosEnv := ⟨fun fd => fd == 0, fun _ => [1, 2, 3]⟩

/-- Witness for `termios_guard` at descriptors 0 (tty) and 1 (not a tty). -/
theorem termios_guard_witness :
    ttyEnv.isatty 0 = true ∧ ttyEnv.isatty 1 = false ∧
    (snapshot_termios ttyEnv 0 = some (ttyEnv.tcgetattr 0) ∧
      snapshot_termios ttyEnv 1 = none ∧
      restore_termios ttyEnv 0 (some (4 :: [])) =
        [.tcflush 0, .tcsetattr 0 (4 :: [])] ∧
      restore_termios ttyEnv 1 (some [9]) = [] ∧
      restore_termios ttyEnv 0 none = [] ∧
      restore_termios ttyEnv 0 (some []) = []) :=
  ⟨rfl, rfl, termios_guard ttyEnv 0 1 (some [9]) 4 [] rfl rfl⟩

/-- Claim C9: the two `Connection`s built by `Pipe()` have four pairwise
distinct descriptors drawn from two distinct OS pipes, each end's read
descriptor differs from its own write descriptor, and the remote descriptors
of each end are exactly the local descriptors of the other end. -/
theorem pipe_descriptor_wiring (next : Nat) :
    ((Pipe next).1.1).r_fd ≠ ((Pipe next).1.1).w_fd ∧
    ((Pipe next).1.2).r_fd ≠ ((Pipe next).1.2).w_fd ∧
    ((Pipe next).1.1).r_fd ≠ ((Pipe next).1.2).r_fd ∧
    ((Pipe next).1.1).r_fd ≠ ((Pipe next).1.2).w_fd ∧
    ((Pipe next).1.1).w_fd ≠ ((Pipe next).1.2).r_fd ∧
    ((Pipe next).1.1).w_fd ≠ ((Pipe next).1.2).w_fd ∧
    ((Pipe next).1.1).remote_r_fd = ((Pipe next).1.2).r_fd ∧
    ((Pipe next).1.1).remote_w_fd = ((Pipe next).1.2).w_fd ∧
    ((Pipe next).1.2).remote_r_fd = ((Pipe next).1.1).r_fd ∧
    ((Pipe next).1.2).remote_w_fd = ((Pipe next).1.1).w_fd ∧
    (((Pipe next).1.1).r_fd, ((Pipe next).1.2).w_fd) = (os_pipe next).1 ∧
    (((Pipe next).1.2).r_fd, ((Pipe next).1.1).w_fd) =
      (os_pipe (os_pipe next).2).1 := by
  refine ⟨?_, ?_, ?_, ?_, ?_, ?_, ?_, ?_, ?_, ?_, ?_, ?_⟩ <;>
    first
    | (simp only [Pipe, os_pipe]; omega)
    | simp only [Pipe, os_pipe]
